import Mathlib

/-!
Shallow embedding of the NimbeLink pynl-base protocol core: the XMODEM
transfer engine (src/nimbelink/utils/xmodem.py) and the CTRL-AP mailbox
debugger protocol (src/nimbelink/debugger/ctrlAp.py,
src/nimbelink/debugger/mailbox.py).

Bytes and words are modelled as Nat; Python bytearrays as List Nat.
A Python function that raises is modelled with Option.  In-place mutation
of a bytearray argument (getPacket pads its argument with += ) is modelled
by returning the mutated buffer alongside the regular return value.

The serial device of the XMODEM engine is modelled by a trace of read
events (a byte arriving, or the read deadline expiring); writes to the
device are modelled as succeeding.  The CTRL-AP debug port is modelled as
a register machine with a discrete clock that advances by one on every
register access; the target CPU's behaviour is an environment saying at
which ticks it consumes the pending debugger-to-CPU word and which
CPU-to-debugger word it posts.
-/

namespace Xmodem

/-- ChunkSize = 256: how much transmission data is chunked into. -/
def ChunkSize : Nat := 256

namespace Packet

/-- The available packet sizes. -/
def TransferSizes : List Nat := [128, 1024]

/-- Start-of-header byte for small (128-byte) packets. -/
def SmallStart : Nat := 0x01

/-- Start-of-header byte for large (1024-byte) packets. -/
def LargeStart : Nat := 0x02

/-- End of transmission byte value. -/
def EndOfTransmission : Nat := 0x04

/-- Packet acknowledgement byte value. -/
def Ack : Nat := 0x06

/-- Packet no-acknowledgement byte value. -/
def Nak : Nat := 0x15

/-- Cancellation of transmission byte value. -/
def Cancelled : Nat := 0x18

/-- The valid response values. -/
def Responses : List Nat := [Ack, Nak]

/-- Python: return (255 - packetId) & 0xFF.  Packet IDs are bytes
(0..255); over that domain Nat truncated subtraction agrees with Python
integer subtraction. -/
def getInversePacketId (packetId : Nat) : Nat :=
  (255 - packetId) &&& 0xFF

/-- The tail of Xmodem.Packet.getPacket shared by the 128- and 1024-byte
branches: optional in-place padding, header and checksum assembly.  The
first component of the result is the caller's buffer after the in-place
padding side effect (packetData += bytearray([padCharacter] * padLength));
the second is the returned packet. -/
def getPacketAssemble (packetData : List Nat) (packetId packetStart padLength : Nat) :
    List Nat × List Nat :=
  let padCharacter : Nat := 0xff
  let packetData :=
    if padLength > 0 then packetData ++ List.replicate padLength padCharacter
    else packetData
  let inversePacketId := getInversePacketId packetId
  let packetHeader := [packetStart, packetId, inversePacketId]
  let checksum := packetData.foldl (fun checksum byte => (checksum + byte) &&& 0xFF) 0
  let packetFooter := [checksum]
  (packetData, packetHeader ++ packetData ++ packetFooter)

/-- Xmodem.Packet.getPacket.  Returns none where the Python code raises
ValueError (data over 1024 bytes). -/
def getPacket (packetData : List Nat) (packetId : Nat) :
    Option (List Nat × List Nat) :=
  if packetData.length ≤ 128 then
    some (getPacketAssemble packetData packetId SmallStart (128 - packetData.length))
  else if packetData.length ≤ 1024 then
    some (getPacketAssemble packetData packetId LargeStart (1024 - packetData.length))
  else none

/-- Gets the first packet ID in the sequence (always 0x01). -/
def getFirstPacketId : Nat := 0x01

/-- Python: return (packetId + 1) & 0xFF. -/
def getNextPacketId (packetId : Nat) : Nat :=
  (packetId + 1) &&& 0xFF

/-- The buffer produced by the in-place padding side effect of getPacket:
the payload extended with 0xff up to 128 or 1024 bytes. -/
def padData (packetData : List Nat) : List Nat :=
  if packetData.length ≤ 128 then
    packetData ++ List.replicate (128 - packetData.length) 0xff
  else
    packetData ++ List.replicate (1024 - packetData.length) 0xff

end Packet

/-- One observable outcome of a one-byte read on the serial device while
a response is awaited: a byte arrives, or the caller's deadline expires
with nothing further arriving. -/
inductive Event where
  | byte (b : Nat)
  | timeout
deriving DecidableEq, Repr

/-- Xmodem._getResponse over a trace of read events.  Consumed events are
dropped from the trace; the first component is the response byte (none
models the Python None returned when the deadline passes). -/
def getResponse (dropGarbage : Bool) : List Event → Option Nat × List Event
  | [] => (none, [])
  | Event.timeout :: rest => (none, rest)
  | Event.byte b :: rest =>
    if b ∈ Packet.Responses then (some b, rest)
    else if dropGarbage then getResponse dropGarbage rest
    else (some b, rest)

/-- Xmodem._startTransmission: waits (dropping garbage) for the initial
response within startTimeout and succeeds only on a NAK. -/
def startTransmission (tr : List Event) : Bool × List Event :=
  let r := getResponse true tr
  if r.1 = some Packet.Nak then (true, r.2) else (false, r.2)

/-- Xmodem._endTransmission: sends the EOT byte (writes are modelled as
succeeding) and succeeds on a final ACK, or on a NAK (tolerated
target-firmware quirk); anything else fails. -/
def endTransmission (tr : List Event) : Bool × List Event :=
  let r := getResponse false tr
  if r.1 = some Packet.Ack then (true, r.2)
  else if r.1 = some Packet.Nak then (true, r.2)
  else (false, r.2)

/-- Xmodem._sendPacket: frames packetData (twice, as the source does),
sends it, and reads the response: ACK succeeds and advances the packet
ID, NAK retries the loop, anything else (garbage byte or timeout) fails.
Returns none where getPacket raises ValueError.  The second component of
a some result is the caller's buffer after the in-place padding done by
getPacket. -/
def sendPacket (packetData : List Nat) (packetId : Nat) (tr : List Event) :
    Option (Bool × List Nat × Nat × List Event) :=
  match Packet.getPacket packetData packetId with
  | none => none
  | some (packetData1, _) =>
    match Packet.getPacket packetData1 packetId with
    | none => none
    | some (packetData2, _) =>
      match h : getResponse false tr with
      | (some response, rest) =>
        if response = Packet.Ack then
          some (true, packetData2, Packet.getNextPacketId packetId, rest)
        else if response = Packet.Nak then
          sendPacket packetData2 packetId rest
        else
          some (false, packetData2, packetId, rest)
      | (none, rest) => some (false, packetData2, packetId, rest)
termination_by tr.length
decreasing_by
  have key : ∀ (d : Bool) (tr0 : List Event) (b : Nat) (r0 : List Event),
      getResponse d tr0 = (some b, r0) → r0.length < tr0.length := by
    intro d tr0
    induction tr0 with
    | nil => intro b r0 hr; simp [getResponse] at hr
    | cons e rest0 ih =>
      intro b r0 hr
      cases e with
      | timeout => simp [getResponse] at hr
      | byte x =>
        rw [getResponse] at hr
        by_cases hx : x ∈ Packet.Responses
        · rw [if_pos hx] at hr
          cases hr
          simp
        · rw [if_neg hx] at hr
          cases d with
          | false =>
            simp only [Bool.false_eq_true, if_false] at hr
            cases hr
            simp
          | true =>
            simp only [if_true] at hr
            have := ih b r0 hr
            simp
            omega
  exact key false tr response rest h

/-- The packet-sending loop of Xmodem.transfer.  count tracks how many
bytes of data have been handed to the modem.  After a successful
_sendPacket the source advances count by len(packetData) where packetData
is the caller's slice as mutated in place by getPacket, i.e. the padded
buffer, whose length is (padData packetData).length. -/
def transferLoop (data : List Nat) (packetSize packetId count : Nat) (tr : List Event) :
    Option (Bool × List Event) :=
  let packetData := (data.drop count).take packetSize
  if packetData.length < 1 then some (true, tr)
  else
    match sendPacket packetData packetId tr with
    | none => none
    | some (sent, _, packetId1, rest) =>
      if sent then
        transferLoop data packetSize packetId1 (count + (Packet.padData packetData).length) rest
      else some (false, rest)
termination_by data.length - count
decreasing_by
  have hne : ¬ ((data.drop count).take packetSize).length < 1 := by assumption
  have h1 : 1 ≤ (Packet.padData ((data.drop count).take packetSize)).length := by
    rw [Packet.padData]
    split
    · simp
      omega
    · simp only [List.length_append, List.length_replicate]
      omega
  have h2 : count < data.length := by
    by_contra hc
    have hd : data.drop count = [] := List.drop_eq_nil_of_le (by omega)
    simp [hd] at hne
  omega

/-- Xmodem.transfer: clear the serial buffers (a no-op here: the trace
holds the bytes that arrive once the transfer begins), start the
handshake, send all packetSize-byte chunks, then end the transmission.
_endTransmission runs even when the packet loop failed; a start failure
returns immediately. -/
def transfer (data : List Nat) (packetSize : Nat) (tr : List Event) :
    Option (Bool × List Event) :=
  let s := startTransmission tr
  if ¬ s.1 then some (false, s.2)
  else
    match transferLoop data packetSize Packet.getFirstPacketId 0 s.2 with
    | none => none
    | some (success, tr1) =>
      let e := endTransmission tr1
      some (success && e.1, e.2)

/-- An event the start phase silently drops: a byte that is not a valid
response value.  A timeout is never dropped. -/
def DroppedGarbage : Event → Prop
  | Event.byte b => b ∉ Packet.Responses
  | Event.timeout => False

/-- The start handshake succeeds on this trace leaving rest: some dropped
garbage, then the initial NAK. -/
def StartNak (tr rest : List Event) : Prop :=
  ∃ g, (∀ e ∈ g, DroppedGarbage e) ∧ tr = g ++ Event.byte Packet.Nak :: rest

/-- One chunk exchange succeeds on this trace leaving rest: finitely many
NAK retries, then an ACK. -/
def ChunkAcked (tr rest : List Event) : Prop :=
  ∃ k, tr = List.replicate k (Event.byte Packet.Nak) ++ Event.byte Packet.Ack :: rest

/-- n consecutive chunk exchanges all succeed. -/
def ChunksAcked : Nat → List Event → List Event → Prop
  | 0, tr, rest => rest = tr
  | n + 1, tr, rest => ∃ mid, ChunkAcked tr mid ∧ ChunksAcked n mid rest

/-- The EOT exchange succeeds on this trace leaving rest: the next event
is an ACK, or a NAK (the tolerated quirk).  A timeout or any other byte
is a failure. -/
def EndAcked (tr rest : List Event) : Prop :=
  tr = Event.byte Packet.Ack :: rest ∨ tr = Event.byte Packet.Nak :: rest

/-- How many packets a transfer of dataLength bytes sends in
packetSize-byte chunks. -/
def numChunks (dataLength packetSize : Nat) : Nat :=
  (dataLength + packetSize - 1) / packetSize

/-- Declarative success condition for a whole transfer over a trace: a
successful start handshake, all chunks acknowledged, and a successful EOT
exchange. -/
def TransferSuccess (data : List Nat) (packetSize : Nat) (tr : List Event) : Prop :=
  ∃ tr1 tr2 tr3, StartNak tr tr1 ∧
    ChunksAcked (numChunks data.length packetSize) tr1 tr2 ∧ EndAcked tr2 tr3

end Xmodem

namespace CtrlAp

namespace Registers

/-- CTRL-AP register offsets (nRF9160 register set). -/
def Reset : Nat := 0x000

def EraseAll : Nat := 0x004

def EraseAllStatus : Nat := 0x008

def MailboxTxData : Nat := 0x020

def MailboxTxStatus : Nat := 0x024

def MailboxRxData : Nat := 0x028

def MailboxRxStatus : Nat := 0x02C

def Idr : Nat := 0x0FC

end Registers

/-- The debugger-visible state of the CTRL-AP mailbox hardware together
with a discrete clock (time.time() in ticks; every register access takes
one tick).  txPending is the debugger-to-CPU word not yet consumed by the
CPU (MailboxTxStatus nonzero); rxPending the CPU-to-debugger word not yet
read by the debugger (MailboxRxStatus nonzero).  txLog records every
write of MailboxTxData with its tick, as an observation history. -/
structure DapState where
  clock : Nat
  txPending : Option Nat
  rxPending : Option Nat
  txLog : List (Nat × Nat)
deriving DecidableEq, Repr

/-- The target CPU's behaviour: at tick t it consumes the pending
debugger-to-CPU word (txConsumeAt), and posts a CPU-to-debugger word when
the RX mailbox is free (rxPostAt). -/
structure Env where
  txConsumeAt : Nat → Bool
  rxPostAt : Nat → Option Nat

/-- One tick of hardware time, applied after each register access. -/
def tick (env : Env) (s : DapState) : DapState :=
  { clock := s.clock + 1
    txPending := if env.txConsumeAt s.clock then none else s.txPending
    rxPending :=
      match s.rxPending with
      | some w => some w
      | none => env.rxPostAt s.clock
    txLog := s.txLog }

/-- CtrlAp.readRegister.  Reading MailboxRxData consumes the pending
CPU-to-debugger word; reading MailboxTxData consumes the pending
debugger-to-CPU word (the force-read used by clearTx).  Status registers
report whether a word is pending.  Other registers (Reset in particular,
used as a flush) read as zero. -/
def readRegister (env : Env) (s : DapState) (register : Nat) : Nat × DapState :=
  if register = Registers.MailboxTxStatus then
    (if s.txPending.isSome then 1 else 0, tick env s)
  else if register = Registers.MailboxRxStatus then
    (if s.rxPending.isSome then 1 else 0, tick env s)
  else if register = Registers.MailboxRxData then
    (s.rxPending.getD 0, tick env { s with rxPending := none })
  else if register = Registers.MailboxTxData then
    (s.txPending.getD 0, tick env { s with txPending := none })
  else
    (0, tick env s)

/-- A write through the debug port.  Writing MailboxTxData leaves the word
pending for the CPU and logs the write. -/
def writeRegister (env : Env) (s : DapState) (register value : Nat) : DapState :=
  if register = Registers.MailboxTxData then
    tick env { s with txPending := some value, txLog := s.txLog ++ [(s.clock, value)] }
  else tick env s

/-- The polling loop of CtrlAp.waitMailboxRead: read MailboxTxStatus until
it is zero or until timeout seconds have passed since start.  Every call
site in the repository passes a timeout, so the timeout-is-None loop is
not modelled. -/
def waitReadLoop (env : Env) (timeout : Int) (start : Nat) (s : DapState) :
    Bool × DapState :=
  let r := readRegister env s Registers.MailboxTxStatus
  if r.1 = 0 then (true, r.2)
  else if (r.2.clock : Int) - (start : Int) ≥ timeout then (false, r.2)
  else waitReadLoop env timeout start r.2
termination_by ((start : Int) + timeout - (s.clock : Int)).toNat
decreasing_by
  have hr1 : (readRegister env s Registers.MailboxTxStatus).2.clock = s.clock + 1 := rfl
  have hr2 : r.2.clock = s.clock + 1 := rfl
  omega

/-- CtrlAp.waitMailboxRead: waits for the debugger-to-CPU word to be read
by the CPU. -/
def waitMailboxRead (env : Env) (timeout : Int) (s : DapState) : Bool × DapState :=
  waitReadLoop env timeout s.clock s

/-- The polling loop of CtrlAp.waitMailboxWritten: read MailboxRxStatus
until it is nonzero or until timeout seconds have passed since start. -/
def waitWrittenLoop (env : Env) (timeout : Int) (start : Nat) (s : DapState) :
    Bool × DapState :=
  let r := readRegister env s Registers.MailboxRxStatus
  if r.1 ≠ 0 then (true, r.2)
  else if (r.2.clock : Int) - (start : Int) ≥ timeout then (false, r.2)
  else waitWrittenLoop env timeout start r.2
termination_by ((start : Int) + timeout - (s.clock : Int)).toNat
decreasing_by
  have hr1 : (readRegister env s Registers.MailboxRxStatus).2.clock = s.clock + 1 := rfl
  have hr2 : r.2.clock = s.clock + 1 := rfl
  omega

/-- CtrlAp.waitMailboxWritten: waits for a CPU-to-debugger word. -/
def waitMailboxWritten (env : Env) (timeout : Int) (s : DapState) : Bool × DapState :=
  waitWrittenLoop env timeout s.clock s

/-- The word loop of CtrlAp.writeMailbox.  start is the clock at the
whole call's start; the timeout argument is the mutable budget, reduced
by timeout -= (now - start) after each word, where now is this
iteration's starting clock.  After the words, an optional flush reads
Reset and waits again on the remaining budget. -/
def writeMailboxLoop (env : Env) (flush : Bool) (start : Nat) :
    List Nat → Int → DapState → Bool × DapState
  | [], timeout, s =>
    if flush then
      let r := readRegister env s Registers.Reset
      let w := waitMailboxRead env timeout r.2
      if ¬ w.1 then (false, w.2) else (true, w.2)
    else (true, s)
  | value :: values, timeout, s =>
    let now := s.clock
    if (now : Int) - (start : Int) ≥ timeout then (false, s)
    else
      let s1 := writeRegister env s Registers.MailboxTxData value
      let w := waitMailboxRead env timeout s1
      if ¬ w.1 then (false, w.2)
      else writeMailboxLoop env flush start values (timeout - ((now : Int) - (start : Int))) w.2

/-- CtrlAp.writeMailbox: writes debugger-to-CPU words, waiting for each
to be consumed, under a budget decremented across the whole call. -/
def writeMailbox (env : Env) (values : List Nat) (flush : Bool) (timeout : Int)
    (s : DapState) : Bool × DapState :=
  writeMailboxLoop env flush s.clock values timeout s

/-- The word loop of CtrlAp.readMailbox: for each of length words, wait
for MailboxRxStatus, re-check the budget (returning None when now - start
has reached the running timeout), decrement the budget, then consume
MailboxRxData. -/
def readMailboxLoop (env : Env) (start : Nat) :
    Nat → List Nat → Int → DapState → Option (List Nat) × DapState
  | 0, values, _, s => (some values, s)
  | n + 1, values, timeout, s =>
    let w := waitMailboxWritten env timeout s
    if ¬ w.1 then (none, w.2)
    else
      let now := w.2.clock
      if (now : Int) - (start : Int) ≥ timeout then (none, w.2)
      else
        let r := readRegister env w.2 Registers.MailboxRxData
        readMailboxLoop env start n (values ++ [r.1]) (timeout - ((now : Int) - (start : Int))) r.2

/-- CtrlAp.readMailbox: reads length CPU-to-debugger words, or returns
none (the Python None) on any timeout. -/
def readMailbox (env : Env) (length : Nat) (timeout : Int) (s : DapState) :
    Option (List Nat) × DapState :=
  readMailboxLoop env s.clock length [] timeout s

/-- CtrlAp.clearTx: if the CPU has not read the pending debugger-to-CPU
word (waitMailboxRead with a 0.0 timeout), force-read MailboxTxData on
its behalf. -/
def clearTx (env : Env) (s : DapState) : DapState :=
  let w := waitMailboxRead env 0 s
  if ¬ w.1 then (readRegister env w.2 Registers.MailboxTxData).2
  else w.2

/-- The while loop of CtrlAp.clearRx: call readMailbox(timeout = 0.0)
until it returns None.  The loop is given explicit fuel; the theorem
readMailbox_zero_timeout_none below shows readMailbox with a zero timeout
always returns none, so the loop always exits on its first iteration and
any fuel of at least one gives the source's behaviour. -/
def clearRxLoop (env : Env) : Nat → DapState → DapState
  | 0, s => s
  | fuel + 1, s =>
    let r := readMailbox env 1 0 s
    match r.1 with
    | none => r.2
    | some _ => clearRxLoop env fuel r.2

/-- CtrlAp.clearRx: flush via a Reset read, then drain CPU-to-debugger
words with zero-timeout readMailbox calls until one reports none. -/
def clearRx (env : Env) (s : DapState) : DapState :=
  clearRxLoop env 1 (readRegister env s Registers.Reset).2

/-- CtrlAp.clear: clearTx then clearRx. -/
def clear (env : Env) (s : DapState) : DapState :=
  clearRx env (clearTx env s)

end CtrlAp

namespace Mailbox

namespace Request

def Ping : Nat := 0

def Dfu : Nat := 1

def Convert : Nat := 2

end Request

namespace Response

def Unknown : Nat := 0

def Ok : Nat := 1

def Error : Nat := 2

end Response

/-- Mailbox.Packet: a type word, a length word and a data payload. -/
structure Packet where
  type : Nat
  length : Nat
  data : List Nat
deriving DecidableEq, Repr

/-- The packet's wire buffer: [type, length] + data. -/
def Packet.buffer (p : Packet) : List Nat :=
  [p.type, p.length] ++ p.data

/-- Mailbox.Packet.makeFromBuffer: none for a buffer of fewer than two
words, otherwise type, length and remaining data. -/
def Packet.makeFromBuffer : List Nat → Option Packet
  | t :: l :: rest => some { type := t, length := l, data := rest }
  | _ => none

/-- Mailbox._sendRequest over the register machine: clear the channel,
write the request buffer with a 3.0-second budget, then read a 2-word
response within the caller's timeout.  some true models Python True,
some false models False, none models None.  The Python `if not response`
test after readMailbox is falsy both for None and for an empty list, so
an empty response list is checked explicitly. -/
def sendRequest (env : CtrlAp.Env) (request : Packet) (timeout : Int)
    (s : CtrlAp.DapState) : Option Bool × CtrlAp.DapState :=
  let s1 := CtrlAp.clear env s
  let w := CtrlAp.writeMailbox env request.buffer false 3 s1
  if ¬ w.1 then (none, w.2)
  else
    let r := CtrlAp.readMailbox env 2 timeout w.2
    match r.1 with
    | none => (none, r.2)
    | some response =>
      if response = [] then (none, r.2)
      else
        match Packet.makeFromBuffer response with
        | none => (some false, r.2)
        | some packet =>
          if packet.type ≠ Response.Ok then (some false, r.2)
          else (some true, r.2)

/-- The request sent by Mailbox.ping. -/
def pingRequest : Packet :=
  { type := Request.Ping, length := 0, data := [] }

/-- Mailbox.ping: truthy (i.e. some true) results of _sendRequest report
success; False and None both report failure. -/
def ping (env : CtrlAp.Env) (s : CtrlAp.DapState) : Bool × CtrlAp.DapState :=
  let r := sendRequest env pingRequest 1 s
  if r.1 = some true then (true, r.2) else (false, r.2)

/-- The request sent by Mailbox.convert. -/
def convertRequest : Packet :=
  { type := Request.Convert, length := 0, data := [] }

/-- The for-loop of Mailbox.convert: up to n pings, stopping at the first
success. -/
def convertPings (env : CtrlAp.Env) : Nat → CtrlAp.DapState → Bool × CtrlAp.DapState
  | 0, s => (false, s)
  | n + 1, s =>
    let p := ping env s
    if p.1 then (true, p.2) else convertPings env n p.2

/-- Mailbox.convert: anything other than a timeout (None) on the initial
Convert send is a failure; after a timeout, up to 10 pings decide the
result. -/
def convert (env : CtrlAp.Env) (s : CtrlAp.DapState) : Bool × CtrlAp.DapState :=
  let r := sendRequest env convertRequest 1 s
  if r.1 ≠ none then (false, r.2)
  else convertPings env 10 r.2

/-- The state after i pings, counting every ping's effect on the machine
(a ping's final state does not depend on its verdict). -/
def pingIter (env : CtrlAp.Env) : Nat → CtrlAp.DapState → CtrlAp.DapState
  | 0, s => s
  | i + 1, s => pingIter env i (ping env s).2

end Mailbox



/-- A silent target CPU: it never consumes debugger-to-CPU words and
never posts CPU-to-debugger words. -/
def idleEnv : CtrlAp.Env :=
  { txConsumeAt := fun _ => false, rxPostAt := fun _ => none }

/-- A target CPU that consumes pending debugger-to-CPU words only at
ticks 1 and 6, and posts nothing. -/
def overshootEnv : CtrlAp.Env :=
  { txConsumeAt := fun t => t == 1 || t == 6, rxPostAt := fun _ => none }

/-- A fresh debug-port state: clock zero, no pending words. -/
def state0 : CtrlAp.DapState :=
  { clock := 0, txPending := none, rxPending := none, txLog := [] }

/-- A debug-port state holding one stale, un-consumed CPU-to-debugger
word (the value 7). -/
def staleRxState : CtrlAp.DapState :=
  { clock := 0, txPending := none, rxPending := some 7, txLog := [] }


/-! ## Packet framing lemmas -/

namespace Xmodem.Packet

theorem and_255_eq_mod (n : Nat) : n &&& 255 = n % 256 := by
  have h := Nat.and_pow_two_sub_one_eq_mod n 8
  simpa using h

theorem checksum_foldl (l : List Nat) :
    ∀ a : Nat, l.foldl (fun checksum byte => (checksum + byte) &&& 0xFF) (a % 256) =
      (a + l.sum) % 256 := by
  induction l with
  | nil => intro a; simp
  | cons b l ih =>
    intro a
    have h1 : (a % 256 + b) &&& 0xFF = (a + b) % 256 := by
      rw [and_255_eq_mod, Nat.mod_add_mod]
    simp only [List.foldl_cons, h1]
    have h2 := ih (a + b)
    rw [h2]
    simp [List.sum_cons, Nat.add_assoc]

theorem checksum_eq_sum_mod (l : List Nat) :
    l.foldl (fun checksum byte => (checksum + byte) &&& 0xFF) 0 = l.sum % 256 := by
  have h := checksum_foldl l 0
  simpa using h

theorem padData_length_small (p : List Nat) (hp : p.length ≤ 128) :
    (padData p).length = 128 := by
  rw [padData, if_pos hp]
  simp
  omega

theorem padData_length_large (p : List Nat) (hp1 : 128 < p.length)
    (hp2 : p.length ≤ 1024) : (padData p).length = 1024 := by
  rw [padData, if_neg (Nat.not_le.mpr hp1)]
  simp
  omega

theorem pad_if_small (p : List Nat) (hp : p.length ≤ 128) :
    (if 128 - p.length > 0 then p ++ List.replicate (128 - p.length) 0xff else p) =
      padData p := by
  rw [padData, if_pos hp]
  by_cases h0 : 128 - p.length > 0
  · rw [if_pos h0]
  · rw [if_neg h0]
    have h1 : 128 - p.length = 0 := by omega
    simp [h1]

theorem pad_if_large (p : List Nat) (hp : ¬ p.length ≤ 128) :
    (if 1024 - p.length > 0 then p ++ List.replicate (1024 - p.length) 0xff else p) =
      padData p := by
  rw [padData, if_neg hp]
  by_cases h0 : 1024 - p.length > 0
  · rw [if_pos h0]
  · rw [if_neg h0]
    have h1 : 1024 - p.length = 0 := by omega
    simp [h1]

theorem getPacket_small (p : List Nat) (packetId : Nat) (hp : p.length ≤ 128) :
    getPacket p packetId =
      some (padData p,
        [SmallStart, packetId, getInversePacketId packetId] ++ padData p ++
          [(padData p).sum % 256]) := by
  rw [getPacket, if_pos hp, getPacketAssemble]
  simp only [pad_if_small p hp, checksum_eq_sum_mod]

theorem getPacket_large (p : List Nat) (packetId : Nat) (hp1 : 128 < p.length)
    (hp2 : p.length ≤ 1024) :
    getPacket p packetId =
      some (padData p,
        [LargeStart, packetId, getInversePacketId packetId] ++ padData p ++
          [(padData p).sum % 256]) := by
  have hnot : ¬ p.length ≤ 128 := Nat.not_le.mpr hp1
  rw [getPacket, if_neg hnot, if_pos hp2, getPacketAssemble]
  simp only [pad_if_large p hnot, checksum_eq_sum_mod]

theorem getPacket_too_large (p : List Nat) (packetId : Nat) (hp : 1024 < p.length) :
    getPacket p packetId = none := by
  unfold getPacket
  have h1 : ¬ p.length ≤ 128 := by omega
  have h2 : ¬ p.length ≤ 1024 := by omega
  simp [h1, h2]

theorem padData_small_eq (p : List Nat) (hp : p.length ≤ 128) :
    padData p = p ++ List.replicate (128 - p.length) 0xff := by
  rw [padData, if_pos hp]

theorem padData_large_eq (p : List Nat) (hp : ¬ p.length ≤ 128) :
    padData p = p ++ List.replicate (1024 - p.length) 0xff := by
  rw [padData, if_neg hp]

theorem padData_idem (p : List Nat) (hp : p.length ≤ 1024) :
    padData (padData p) = padData p := by
  by_cases h : p.length ≤ 128
  · have hl : (padData p).length = 128 := padData_length_small p h
    rw [padData_small_eq (padData p) (by omega)]
    simp [hl]
  · have hl : (padData p).length = 1024 := padData_length_large p (by omega) hp
    rw [padData_large_eq (padData p) (by omega)]
    simp [hl]

theorem getPacket_padData (p : List Nat) (packetId : Nat) (hp : p.length ≤ 1024) :
    getPacket p packetId =
      some (padData p,
        [(if p.length ≤ 128 then SmallStart else LargeStart), packetId,
          getInversePacketId packetId] ++ padData p ++ [(padData p).sum % 256]) := by
  by_cases h : p.length ≤ 128
  · rw [getPacket_small p packetId h, if_pos h]
  · rw [getPacket_large p packetId (by omega) hp, if_neg h]

theorem getInversePacketId_eq (packetId : Nat) (h : packetId ≤ 255) :
    getInversePacketId packetId = 255 - packetId := by
  rw [getInversePacketId, and_255_eq_mod]
  exact Nat.mod_eq_of_lt (by omega)

theorem getNextPacketId_eq (packetId : Nat) :
    getNextPacketId packetId = (packetId + 1) % 256 := by
  rw [getNextPacketId, and_255_eq_mod]

end Xmodem.Packet

/-! ## Claims C2, C8, C9, C10: packet framing -/

namespace Xmodem.Packet

/-- Claim C2: for every payload p with len(p) <= 128 and every id in
[0,255], getPacket(p, id) produces a frame whose first three bytes are
[0x01 (SOH), id, 255 - id], whose payload region is p right-padded with
0xFF to exactly 128 bytes, whose trailing byte is the additive sum mod
256 of the padded payload only (header excluded), and whose total length
is 3 + 128 + 1 = 132. -/
theorem claim_C2_small_frame (p : List Nat) (packetId : Nat)
    (hp : p.length ≤ 128) (hid : packetId ≤ 255) :
    getPacket p packetId =
      some (p ++ List.replicate (128 - p.length) 0xff,
        [0x01, packetId, 255 - packetId] ++
          (p ++ List.replicate (128 - p.length) 0xff) ++
          [(p ++ List.replicate (128 - p.length) 0xff).sum % 256]) ∧
    ([0x01, packetId, 255 - packetId] ++
        (p ++ List.replicate (128 - p.length) 0xff) ++
        [(p ++ List.replicate (128 - p.length) 0xff).sum % 256]).length = 3 + 128 + 1 := by
  have hpad := padData_small_eq p hp
  constructor
  · rw [getPacket_small p packetId hp, getInversePacketId_eq packetId hid, hpad]
    rfl
  · simp
    omega

set_option maxRecDepth 8000 in
/-- Witness for claim C2 at the spec's scenario: ten bytes 0x41 with id
1 give a 132-byte frame with byte 1 equal to 1 and byte 2 equal to 254. -/
theorem claim_C2_witness :
    (getPacket (List.replicate 10 65) 1).isSome = true ∧
    ((getPacket (List.replicate 10 65) 1).getD ([], [])).2.length = 132 ∧
    ((getPacket (List.replicate 10 65) 1).getD ([], [])).2.getD 1 0 = 1 ∧
    ((getPacket (List.replicate 10 65) 1).getD ([], [])).2.getD 2 0 = 254 := by
  have h := claim_C2_small_frame (List.replicate 10 65) 1 (by decide) (by decide)
  rw [h.1]
  decide

/-- Claim C8: payloads of 129..1024 bytes use the STX (0x02) large-packet
header and are padded with 0xFF to exactly 1024 bytes; payloads over 1024
bytes make getPacket fail (the Python ValueError) rather than silently
truncate. -/
theorem claim_C8_large_and_error (p : List Nat) (packetId : Nat) :
    (128 < p.length → p.length ≤ 1024 →
      getPacket p packetId =
        some (p ++ List.replicate (1024 - p.length) 0xff,
          [0x02, packetId, getInversePacketId packetId] ++
            (p ++ List.replicate (1024 - p.length) 0xff) ++
            [(p ++ List.replicate (1024 - p.length) 0xff).sum % 256]) ∧
      (p ++ List.replicate (1024 - p.length) 0xff).length = 1024) ∧
    (1024 < p.length → getPacket p packetId = none) := by
  constructor
  · intro h1 h2
    have hpad := padData_large_eq p (by omega)
    constructor
    · rw [getPacket_large p packetId h1 h2, hpad]
      rfl
    · rw [← hpad]
      exact padData_length_large p h1 h2
  · intro h
    exact getPacket_too_large p packetId h

set_option maxRecDepth 16000 in
/-- Witness for claim C8: a 200-byte payload frames successfully (as a
large packet) and a 1025-byte payload is rejected. -/
theorem claim_C8_witness :
    (getPacket (List.replicate 200 7) 3).isSome = true ∧
    getPacket (List.replicate 1025 0) 3 = none := by
  have h1 := claim_C8_large_and_error (List.replicate 200 7) 3
  have h2 := claim_C8_large_and_error (List.replicate 1025 0) 3
  constructor
  · rw [(h1.1 (by decide) (by decide)).1]
    rfl
  · exact h2.2 (by decide)

/-- Claim C9: for every id in [0,255], getInversePacketId id = 255 - id;
getNextPacketId id = (id + 1) mod 256 in general, and in particular
getNextPacketId 255 = 0 (wraparound). -/
theorem claim_C9_packet_id_algebra (packetId : Nat) :
    (packetId ≤ 255 → getInversePacketId packetId = 255 - packetId) ∧
    getNextPacketId packetId = (packetId + 1) % 256 ∧
    getNextPacketId 255 = 0 :=
  ⟨fun h => getInversePacketId_eq packetId h, getNextPacketId_eq packetId, by decide⟩

/-- Witness for claim C9 at id 7. -/
theorem claim_C9_witness :
    getInversePacketId 7 = 248 ∧ getNextPacketId 255 = 0 := by
  have h := claim_C9_packet_id_algebra 7
  refine ⟨?_, h.2.2⟩
  rw [h.1 (by decide)]

/-- Claim C10: getPacket pads its bytearray argument in place to exactly
128 or 1024 bytes (here: the returned buffer is the caller's buffer after
mutation), and a second call on the already-padded buffer with the same
id returns an identical buffer and frame — what _sendPacket relies on
when it frames the same data twice and when it retransmits after a NAK. -/
theorem claim_C10_pad_in_place_idempotent (p : List Nat) (packetId : Nat)
    (hp : p.length ≤ 1024) :
    ∃ frame,
      getPacket p packetId = some (padData p, frame) ∧
      (padData p).length = (if p.length ≤ 128 then 128 else 1024) ∧
      getPacket (padData p) packetId = some (padData p, frame) := by
  refine ⟨_, getPacket_padData p packetId hp, ?_, ?_⟩
  · by_cases h : p.length ≤ 128
    · simp [h, padData_length_small p h]
    · simp [h, padData_length_large p (by omega) hp]
  · have hlen : (padData p).length ≤ 1024 := by
      by_cases h : p.length ≤ 128
      · rw [padData_length_small p h]
        omega
      · rw [padData_length_large p (by omega) hp]
    rw [getPacket_padData (padData p) packetId hlen, padData_idem p hp]
    by_cases h : p.length ≤ 128
    · simp [h, padData_length_small p h]
    · simp [h, padData_length_large p (by omega) hp]

/-- Witness for claim C10 at a 10-byte payload: the buffer comes back
padded to 128 bytes and re-framing the padded buffer gives the same
frame. -/
theorem claim_C10_witness :
    ∃ frame,
      getPacket (List.replicate 10 65) 1 = some (padData (List.replicate 10 65), frame) ∧
      (padData (List.replicate 10 65)).length =
        (if (List.replicate 10 (65 : Nat)).length ≤ 128 then 128 else 1024) ∧
      getPacket (padData (List.replicate 10 65)) 1 =
        some (padData (List.replicate 10 65), frame) :=
  claim_C10_pad_in_place_idempotent (List.replicate 10 65) 1 (by decide)

end Xmodem.Packet

/-! ## XMODEM response and handshake lemmas -/

namespace Xmodem

theorem getResponse_false_byte (b : Nat) (r : List Event) :
    getResponse false (Event.byte b :: r) = (some b, r) := by
  by_cases h : b ∈ Packet.Responses <;> simp [getResponse, h]

theorem getResponse_true_some_iff (tr : List Event) (b : Nat) (rest : List Event) :
    getResponse true tr = (some b, rest) ↔
      b ∈ Packet.Responses ∧
        ∃ g, (∀ e ∈ g, DroppedGarbage e) ∧ tr = g ++ Event.byte b :: rest := by
  induction tr with
  | nil =>
    simp only [getResponse]
    constructor
    · intro h
      exact absurd (congrArg Prod.fst h) (by simp)
    · rintro ⟨hb, g, hg, heq⟩
      exact absurd heq (by simp)
  | cons e tr ih =>
    cases e with
    | timeout =>
      simp only [getResponse]
      constructor
      · intro h
        exact absurd (congrArg Prod.fst h) (by simp)
      · rintro ⟨hb, g, hg, heq⟩
        cases g with
        | nil => simp at heq
        | cons e0 g =>
          simp only [List.cons_append, List.cons.injEq] at heq
          have hgar := hg e0 (by simp)
          rw [← heq.1] at hgar
          exact hgar.elim
    | byte x =>
      by_cases hx : x ∈ Packet.Responses
      · rw [getResponse, if_pos hx]
        constructor
        · intro h
          have h1 : x = b := by
            have := congrArg Prod.fst h
            simpa using this
          have h2 : tr = rest := by
            have := congrArg Prod.snd h
            simpa using this
          subst h1
          subst h2
          exact ⟨hx, [], by simp, rfl⟩
        · rintro ⟨hb, g, hg, heq⟩
          cases g with
          | nil =>
            simp only [List.nil_append, List.cons.injEq, Event.byte.injEq] at heq
            rw [heq.1, heq.2]
          | cons e0 g =>
            simp only [List.cons_append, List.cons.injEq] at heq
            have hgar := hg e0 (by simp)
            rw [← heq.1] at hgar
            exact absurd hx hgar
      · rw [getResponse, if_neg hx, if_pos rfl, ih]
        constructor
        · rintro ⟨hb, g, hg, heq⟩
          refine ⟨hb, Event.byte x :: g, ?_, by rw [heq]; rfl⟩
          intro e he
          rcases List.mem_cons.mp he with h1 | h1
          · rw [h1]
            exact hx
          · exact hg e h1
        · rintro ⟨hb, g, hg, heq⟩
          cases g with
          | nil =>
            simp only [List.nil_append, List.cons.injEq, Event.byte.injEq] at heq
            rw [heq.1] at hx
            exact absurd hb hx
          | cons e0 g =>
            simp only [List.cons_append, List.cons.injEq] at heq
            exact ⟨hb, g, fun e he => hg e (List.mem_cons_of_mem e0 he), heq.2⟩

end Xmodem

namespace Xmodem

theorem getResponse_true_nak_iff (tr rest : List Event) :
    getResponse true tr = (some Packet.Nak, rest) ↔ StartNak tr rest := by
  rw [getResponse_true_some_iff, StartNak]
  have h : Packet.Nak ∈ Packet.Responses := by decide
  simp [h]

theorem startTransmission_eq_true_iff (tr rest : List Event) :
    startTransmission tr = (true, rest) ↔ StartNak tr rest := by
  rw [← getResponse_true_nak_iff]
  unfold startTransmission
  cases hr : getResponse true tr with
  | mk o r2 =>
    by_cases hc : o = some Packet.Nak
    · subst hc
      simp [Prod.ext_iff]
    · simp [hc, Prod.ext_iff]

theorem endTransmission_eq_true_iff (tr rest : List Event) :
    endTransmission tr = (true, rest) ↔ EndAcked tr rest := by
  cases tr with
  | nil =>
    simp only [endTransmission, getResponse, EndAcked]
    constructor
    · intro h
      exact absurd (congrArg Prod.fst h) (by simp)
    · rintro (h | h) <;> simp at h
  | cons e tr =>
    cases e with
    | timeout =>
      simp only [endTransmission, getResponse, EndAcked]
      constructor
      · intro h
        exact absurd (congrArg Prod.fst h) (by simp)
      · rintro (h | h) <;> simp at h
    | byte b =>
      simp only [endTransmission, getResponse_false_byte, EndAcked]
      by_cases hA : b = Packet.Ack
      · subst hA
        simp [Prod.ext_iff, List.cons.injEq, Event.byte.injEq, Packet.Ack, Packet.Nak,
          eq_comm]
      · by_cases hN : b = Packet.Nak
        · subst hN
          simp [Prod.ext_iff, List.cons.injEq, Event.byte.injEq, Packet.Ack, Packet.Nak,
            eq_comm]
        · simp [hA, hN, Prod.ext_iff, List.cons.injEq, Event.byte.injEq]

end Xmodem

/-! ## Claim C5: the start phase -/

namespace Xmodem

/-- Counterexample to claim C5 as stated: on the trace [Ack byte, Nak
byte] a NAK does arrive and no timeout precedes it, yet
_startTransmission fails: the Ack is a valid response value, so it is
returned rather than discarded, and the start phase gives up on it
instead of continuing to wait for the NAK. -/
theorem claim_C5_counterexample :
    Event.byte Packet.Nak ∈
      ([Event.byte Packet.Ack, Event.byte Packet.Nak] : List Event) ∧
    Event.timeout ∉
      ([Event.byte Packet.Ack, Event.byte Packet.Nak] : List Event) ∧
    (startTransmission [Event.byte Packet.Ack, Event.byte Packet.Nak]).1 = false := by
  refine ⟨by decide, by decide, ?_⟩
  rfl

/-- Claim C5 (amended): during the start phase _startTransmission
discards only bytes that are not valid response values (neither Ack nor
Nak) and keeps waiting after them; it returns True exactly when the
first valid-response byte to arrive within startTimeout is a NAK — an
Ack, like a timeout, is a failure. -/
theorem claim_C5_start_amended (tr rest : List Event) :
    startTransmission tr = (true, rest) ↔ StartNak tr rest :=
  startTransmission_eq_true_iff tr rest

end Xmodem

/-! ## sendPacket characterization -/

namespace Xmodem

theorem padData_le_1024 (pd : List Nat) (hp : pd.length ≤ 1024) :
    (Packet.padData pd).length ≤ 1024 := by
  by_cases h : pd.length ≤ 128
  · rw [Packet.padData_length_small pd h]
    omega
  · rw [Packet.padData_length_large pd (by omega) hp]

theorem sendPacket_unfold (pd : List Nat) (pid : Nat) (tr : List Event)
    (hp : pd.length ≤ 1024) :
    sendPacket pd pid tr =
      match getResponse false tr with
      | (some response, rest) =>
        if response = Packet.Ack then
          some (true, Packet.padData pd, Packet.getNextPacketId pid, rest)
        else if response = Packet.Nak then
          sendPacket (Packet.padData pd) pid rest
        else some (false, Packet.padData pd, pid, rest)
      | (none, rest) => some (false, Packet.padData pd, pid, rest) := by
  rw [sendPacket]
  rw [Packet.getPacket_padData pd pid hp]
  simp only []
  rw [Packet.getPacket_padData (Packet.padData pd) pid (padData_le_1024 pd hp)]
  simp only []
  rw [Packet.padData_idem pd hp]
  cases hgr : getResponse false tr with
  | mk o rest0 =>
    cases o with
    | none => rfl
    | some b => rfl

theorem chunkAcked_nil (rest : List Event) : ¬ ChunkAcked [] rest := by
  rintro ⟨k, hk⟩
  cases k with
  | zero => simp at hk
  | succ k => simp [List.replicate_succ] at hk

theorem chunkAcked_ack_cons (r rest : List Event) :
    ChunkAcked (Event.byte Packet.Ack :: r) rest ↔ r = rest := by
  constructor
  · rintro ⟨k, hk⟩
    cases k with
    | zero =>
      simp only [List.replicate, List.nil_append, List.cons.injEq] at hk
      exact hk.2
    | succ k =>
      rw [List.replicate_succ, List.cons_append] at hk
      have := ((List.cons.injEq _ _ _ _).mp hk).1
      exact absurd (Event.byte.inj this) (by decide)
  · rintro rfl
    exact ⟨0, by simp⟩

theorem chunkAcked_nak_cons (r rest : List Event) :
    ChunkAcked (Event.byte Packet.Nak :: r) rest ↔ ChunkAcked r rest := by
  constructor
  · rintro ⟨k, hk⟩
    cases k with
    | zero =>
      simp only [List.replicate, List.nil_append, List.cons.injEq] at hk
      exact absurd (Event.byte.inj hk.1) (by decide)
    | succ k =>
      rw [List.replicate_succ, List.cons_append] at hk
      exact ⟨k, ((List.cons.injEq _ _ _ _).mp hk).2⟩
  · rintro ⟨k, hk⟩
    exact ⟨k + 1, by rw [List.replicate_succ, List.cons_append, hk]⟩

theorem chunkAcked_other (e : Event) (r rest : List Event)
    (hA : e ≠ Event.byte Packet.Ack) (hN : e ≠ Event.byte Packet.Nak) :
    ¬ ChunkAcked (e :: r) rest := by
  rintro ⟨k, hk⟩
  cases k with
  | zero =>
    simp only [List.replicate, List.nil_append, List.cons.injEq] at hk
    exact hA hk.1
  | succ k =>
    rw [List.replicate_succ, List.cons_append] at hk
    exact hN ((List.cons.injEq _ _ _ _).mp hk).1

theorem sendPacket_ne_none :
    ∀ (tr : List Event) (pd : List Nat) (pid : Nat), pd.length ≤ 1024 →
      sendPacket pd pid tr ≠ none := by
  intro tr
  induction tr with
  | nil =>
    intro pd pid hp
    rw [sendPacket_unfold pd pid [] hp]
    simp [getResponse]
  | cons e r ih =>
    intro pd pid hp
    cases e with
    | timeout =>
      rw [sendPacket_unfold pd pid _ hp]
      simp [getResponse]
    | byte b =>
      rw [sendPacket_unfold pd pid _ hp, getResponse_false_byte]
      simp only []
      by_cases hA : b = Packet.Ack
      · simp [hA]
      · by_cases hN : b = Packet.Nak
        · simp only [hA, if_false, hN, if_true]
          exact ih (Packet.padData pd) pid (padData_le_1024 pd hp)
        · simp [hA, hN]

theorem sendPacket_true_iff :
    ∀ (tr : List Event) (pd : List Nat) (pid : Nat) (pd2 : List Nat) (pid2 : Nat)
      (rest : List Event), pd.length ≤ 1024 →
      (sendPacket pd pid tr = some (true, pd2, pid2, rest) ↔
        (ChunkAcked tr rest ∧ pd2 = Packet.padData pd ∧
          pid2 = Packet.getNextPacketId pid)) := by
  intro tr
  induction tr with
  | nil =>
    intro pd pid pd2 pid2 rest hp
    rw [sendPacket_unfold pd pid [] hp]
    simp only [getResponse]
    constructor
    · intro h
      exact absurd ((Option.some.injEq _ _).mp h) (by simp)
    · rintro ⟨hc, h2, h3⟩
      exact absurd hc (chunkAcked_nil rest)
  | cons e r ih =>
    intro pd pid pd2 pid2 rest hp
    cases e with
    | timeout =>
      rw [sendPacket_unfold pd pid _ hp]
      simp only [getResponse]
      constructor
      · intro h
        exact absurd ((Option.some.injEq _ _).mp h) (by simp)
      · rintro ⟨hc, h2, h3⟩
        exact absurd hc (chunkAcked_other Event.timeout r rest (by simp) (by simp))
    | byte b =>
      rw [sendPacket_unfold pd pid _ hp, getResponse_false_byte]
      simp only []
      by_cases hA : b = Packet.Ack
      · subst hA
        rw [if_pos rfl]
        rw [chunkAcked_ack_cons]
        constructor
        · intro h
          simp only [Option.some.injEq, Prod.mk.injEq] at h
          exact ⟨h.2.2.2, h.2.1.symm, h.2.2.1.symm⟩
        · rintro ⟨rfl, rfl, rfl⟩
          rfl
      · by_cases hN : b = Packet.Nak
        · subst hN
          rw [if_neg hA, if_pos rfl]
          rw [chunkAcked_nak_cons]
          rw [ih (Packet.padData pd) pid pd2 pid2 rest (padData_le_1024 pd hp)]
          rw [Packet.padData_idem pd hp]
        · rw [if_neg hA, if_neg hN]
          constructor
          · intro h
            exact absurd ((Option.some.injEq _ _).mp h) (by simp)
          · rintro ⟨hc, h2, h3⟩
            refine absurd hc (chunkAcked_other (Event.byte b) r rest ?_ ?_)
            · intro hcontra
              exact hA (Event.byte.inj hcontra)
            · intro hcontra
              exact hN (Event.byte.inj hcontra)

end Xmodem

/-! ## transferLoop and transfer characterization -/

namespace Xmodem

theorem padData_length_eq (p : List Nat) (hp : p.length ≤ 1024) :
    (Packet.padData p).length = if p.length ≤ 128 then 128 else 1024 := by
  by_cases h : p.length ≤ 128
  · rw [if_pos h]
    exact Packet.padData_length_small p h
  · rw [if_neg h]
    exact Packet.padData_length_large p (by omega) hp

theorem numChunks_zero (ps : Nat) (hps : ps = 128 ∨ ps = 1024) :
    numChunks 0 ps = 0 := by
  rcases hps with rfl | rfl <;> decide

theorem numChunks_succ (m ps L : Nat) (hm : 1 ≤ m) (hps : ps = 128 ∨ ps = 1024)
    (hL : L = if min ps m ≤ 128 then 128 else 1024) :
    numChunks m ps = numChunks (m - L) ps + 1 := by
  rcases hps with rfl | rfl <;>
    (simp only [numChunks]
     split at hL <;> omega)

theorem chunksAcked_zero_iff (tr res : List Event) :
    ChunksAcked 0 tr res ↔ res = tr :=
  Iff.rfl

theorem chunksAcked_succ_iff (k : Nat) (tr res : List Event) :
    ChunksAcked (k + 1) tr res ↔ ∃ mid, ChunkAcked tr mid ∧ ChunksAcked k mid res :=
  Iff.rfl

theorem transferLoop_empty (data : List Nat) (ps pid count : Nat) (tr : List Event)
    (h : ((data.drop count).take ps).length < 1) :
    transferLoop data ps pid count tr = some (true, tr) := by
  rw [transferLoop]
  simp [h]
  intro h1 h2
  rw [List.length_take, List.length_drop] at h
  omega

theorem transferLoop_step (data : List Nat) (ps pid count : Nat) (tr : List Event)
    (h : ¬ ((data.drop count).take ps).length < 1) :
    transferLoop data ps pid count tr =
      match sendPacket ((data.drop count).take ps) pid tr with
      | none => none
      | some (sent, _, pid1, rest) =>
        if sent then
          transferLoop data ps pid1
            (count + (Packet.padData ((data.drop count).take ps)).length) rest
        else some (false, rest) := by
  rw [transferLoop]
  simp only [h, if_false, if_neg]

end Xmodem

namespace Xmodem

theorem transferLoop_ne_none (data : List Nat) (ps : Nat)
    (hps : ps = 128 ∨ ps = 1024) :
    ∀ (n count pid : Nat) (tr : List Event), data.length - count ≤ n →
      transferLoop data ps pid count tr ≠ none := by
  intro n
  induction n with
  | zero =>
    intro count pid tr hle
    have hempty : ((data.drop count).take ps).length < 1 := by
      rw [List.length_take, List.length_drop]
      omega
    rw [transferLoop_empty data ps pid count tr hempty]
    simp
  | succ n ih =>
    intro count pid tr hle
    by_cases hempty : ((data.drop count).take ps).length < 1
    · rw [transferLoop_empty data ps pid count tr hempty]
      simp
    · have hchunk1024 : ((data.drop count).take ps).length ≤ 1024 := by
        rw [List.length_take, List.length_drop]
        rcases hps with rfl | rfl <;> omega
      rw [transferLoop_step data ps pid count tr hempty]
      cases hsp : sendPacket ((data.drop count).take ps) pid tr with
      | none => exact absurd hsp (sendPacket_ne_none tr _ pid hchunk1024)
      | some r =>
        obtain ⟨sent, pdX, pid1, rest⟩ := r
        simp only []
        cases sent with
        | false => simp
        | true =>
          simp only [if_pos]
          have hm : 1 ≤ data.length - count := by
            rw [List.length_take, List.length_drop] at hempty
            rcases hps with rfl | rfl <;> omega
          have hpadlen : (Packet.padData ((data.drop count).take ps)).length =
              if ((data.drop count).take ps).length ≤ 128 then 128 else 1024 :=
            padData_length_eq _ hchunk1024
          have hmeas : data.length -
              (count + (Packet.padData ((data.drop count).take ps)).length) ≤ n := by
            have h1 : 1 ≤ (Packet.padData ((data.drop count).take ps)).length := by
              rw [hpadlen]
              split <;> omega
            omega
          exact ih _ pid1 rest hmeas

theorem transferLoop_true_iff_aux (data : List Nat) (ps : Nat)
    (hps : ps = 128 ∨ ps = 1024) :
    ∀ (n count pid : Nat) (tr res : List Event), data.length - count ≤ n →
      (transferLoop data ps pid count tr = some (true, res) ↔
        ChunksAcked (numChunks (data.length - count) ps) tr res) := by
  intro n
  induction n with
  | zero =>
    intro count pid tr res hle
    have hempty : ((data.drop count).take ps).length < 1 := by
      rw [List.length_take, List.length_drop]
      omega
    rw [transferLoop_empty data ps pid count tr hempty]
    have h0 : data.length - count = 0 := by omega
    rw [h0, numChunks_zero ps hps, chunksAcked_zero_iff]
    simp [eq_comm]
  | succ n ih =>
    intro count pid tr res hle
    by_cases hempty : ((data.drop count).take ps).length < 1
    · rw [transferLoop_empty data ps pid count tr hempty]
      have h0 : data.length - count = 0 := by
        rw [List.length_take, List.length_drop] at hempty
        rcases hps with rfl | rfl <;> omega
      rw [h0, numChunks_zero ps hps, chunksAcked_zero_iff]
      simp [eq_comm]
    · have hm : 1 ≤ data.length - count := by
        rw [List.length_take, List.length_drop] at hempty
        rcases hps with rfl | rfl <;> omega
      have hchunk1024 : ((data.drop count).take ps).length ≤ 1024 := by
        rw [List.length_take, List.length_drop]
        rcases hps with rfl | rfl <;> omega
      have hchunklen : ((data.drop count).take ps).length = min ps (data.length - count) := by
        rw [List.length_take, List.length_drop]
      have hpadlen : (Packet.padData ((data.drop count).take ps)).length =
          if ((data.drop count).take ps).length ≤ 128 then 128 else 1024 :=
        padData_length_eq _ hchunk1024
      have hone : 1 ≤ (Packet.padData ((data.drop count).take ps)).length := by
        rw [hpadlen]
        split <;> omega
      have hnum : numChunks (data.length - count) ps =
          numChunks (data.length -
            (count + (Packet.padData ((data.drop count).take ps)).length)) ps + 1 := by
        have hsub : data.length -
            (count + (Packet.padData ((data.drop count).take ps)).length) =
            (data.length - count) - (Packet.padData ((data.drop count).take ps)).length := by
          omega
        rw [hsub]
        refine numChunks_succ (data.length - count) ps _ hm hps ?_
        rw [hpadlen, hchunklen]
      rw [transferLoop_step data ps pid count tr hempty]
      cases hsp : sendPacket ((data.drop count).take ps) pid tr with
      | none => exact absurd hsp (sendPacket_ne_none tr _ pid hchunk1024)
      | some r =>
        obtain ⟨sent, pdX, pid1, rest⟩ := r
        simp only []
        cases sent with
        | false =>
          simp only [Bool.false_eq_true, if_false]
          rw [hnum, chunksAcked_succ_iff]
          constructor
          · intro hcontra
            exact absurd ((Option.some.injEq _ _).mp hcontra) (by simp)
          · rintro ⟨mid, hmid, hrest⟩
            have hdet := (sendPacket_true_iff tr _ pid
              (Packet.padData ((data.drop count).take ps))
              (Packet.getNextPacketId pid) mid hchunk1024).mpr ⟨hmid, rfl, rfl⟩
            rw [hsp] at hdet
            have := (Option.some.injEq _ _).mp hdet
            simp only [Prod.mk.injEq] at this
            exact absurd this.1 (by simp)
        | true =>
          simp only [if_pos]
          have hfwd := (sendPacket_true_iff tr _ pid pdX pid1 rest hchunk1024).mp hsp
          obtain ⟨hch, hpdX, hpid1⟩ := hfwd
          have hmeas : data.length -
              (count + (Packet.padData ((data.drop count).take ps)).length) ≤ n := by
            omega
          rw [ih _ pid1 rest res hmeas, hnum, chunksAcked_succ_iff]
          constructor
          · intro h
            exact ⟨rest, hch, h⟩
          · rintro ⟨mid, hmid, hrest2⟩
            have hdet := (sendPacket_true_iff tr _ pid
              (Packet.padData ((data.drop count).take ps))
              (Packet.getNextPacketId pid) mid hchunk1024).mpr ⟨hmid, rfl, rfl⟩
            rw [hsp] at hdet
            have heq := (Option.some.injEq _ _).mp hdet
            simp only [Prod.mk.injEq] at heq
            rw [heq.2.2.2]
            exact hrest2

end Xmodem

namespace Xmodem

theorem transfer_of_start_false (data : List Nat) (ps : Nat) (tr tr1 : List Event)
    (h : startTransmission tr = (false, tr1)) :
    transfer data ps tr = some (false, tr1) := by
  simp [transfer, h]

theorem transfer_of_start_true (data : List Nat) (ps : Nat) (tr tr1 tr2 tr3 : List Event)
    (ls eOk : Bool) (h : startTransmission tr = (true, tr1))
    (hl : transferLoop data ps Packet.getFirstPacketId 0 tr1 = some (ls, tr2))
    (he : endTransmission tr2 = (eOk, tr3)) :
    transfer data ps tr = some (ls && eOk, tr3) := by
  simp [transfer, h, hl, he]

end Xmodem

/-! ## Claim C1: transfer success condition -/

namespace Xmodem

/-- Claim C1: for packet sizes 128 and 1024, transfer(data) always
returns a boolean (never a silent partial success), and it returns True
if and only if the start handshake succeeded, every packetSize-byte chunk
of data was acknowledged with Ack (possibly after NAK retries), and the
final EOT byte was answered with Ack or with the tolerated Nak within
stopTimeout; an unresolved NAK-retry loop (ending in timeout or garbage),
an abort byte, or a failed EOT exchange all give False. -/
theorem claim_C1_transfer_iff (data : List Nat) (ps : Nat)
    (hps : ps = 128 ∨ ps = 1024) (tr : List Event) :
    ∃ (b : Bool) (rest : List Event), transfer data ps tr = some (b, rest) ∧
      (b = true ↔ TransferSuccess data ps tr) := by
  cases hs : startTransmission tr with
  | mk sOk tr1 =>
    cases sOk with
    | false =>
      refine ⟨false, tr1, transfer_of_start_false data ps tr tr1 hs, ?_, ?_⟩
      · intro h
        exact absurd h (by simp)
      · rintro ⟨tr1x, tr2x, tr3x, hstartx, hchunksx, hendx⟩
        have h1 := (startTransmission_eq_true_iff tr tr1x).mpr hstartx
        rw [hs] at h1
        have := (Prod.mk.injEq _ _ _ _).mp h1
        exact absurd this.1 (by simp)
    | true =>
      have hstart : StartNak tr tr1 := (startTransmission_eq_true_iff tr tr1).mp hs
      cases hloop : transferLoop data ps Packet.getFirstPacketId 0 tr1 with
      | none =>
        exact absurd hloop
          (transferLoop_ne_none data ps hps data.length 0 Packet.getFirstPacketId tr1
            (by omega))
      | some lr =>
        obtain ⟨ls, tr2⟩ := lr
        cases he : endTransmission tr2 with
        | mk eOk tr3 =>
          refine ⟨ls && eOk, tr3,
            transfer_of_start_true data ps tr tr1 tr2 tr3 ls eOk hs hloop he, ?_, ?_⟩
          · intro hb
            obtain ⟨hls, heok⟩ := Bool.and_eq_true ls eOk |>.mp hb
            subst hls
            subst heok
            have hchunks : ChunksAcked (numChunks data.length ps) tr1 tr2 := by
              have h2 := (transferLoop_true_iff_aux data ps hps data.length 0
                Packet.getFirstPacketId tr1 tr2 (by omega)).mp hloop
              rw [Nat.sub_zero] at h2
              exact h2
            have hend : EndAcked tr2 tr3 := (endTransmission_eq_true_iff tr2 tr3).mp he
            exact ⟨tr1, tr2, tr3, hstart, hchunks, hend⟩
          · rintro ⟨tr1x, tr2x, tr3x, hstartx, hchunksx, hendx⟩
            have h1 := (startTransmission_eq_true_iff tr tr1x).mpr hstartx
            rw [hs] at h1
            have htr1 : tr1 = tr1x := ((Prod.mk.injEq _ _ _ _).mp h1).2
            subst htr1
            have h2 := (transferLoop_true_iff_aux data ps hps data.length 0
              Packet.getFirstPacketId tr1 tr2x (by omega)).mpr
              (by rw [Nat.sub_zero]; exact hchunksx)
            rw [hloop] at h2
            have h2e := (Option.some.injEq _ _).mp h2
            have hls : ls = true := ((Prod.mk.injEq _ _ _ _).mp h2e).1
            have htr2 : tr2 = tr2x := ((Prod.mk.injEq _ _ _ _).mp h2e).2
            subst hls
            subst htr2
            have h3 := (endTransmission_eq_true_iff tr2 tr3x).mpr hendx
            rw [he] at h3
            have heok : eOk = true := ((Prod.mk.injEq _ _ _ _).mp h3).1
            subst heok
            rfl

/-- Witness for claim C1: a two-byte payload in 128-byte packets over
the trace [Nak (start handshake), Ack (chunk), Ack (EOT)]. -/
theorem claim_C1_witness :
    ∃ (b : Bool) (rest : List Event),
      transfer [1, 2] 128
        [Event.byte Packet.Nak, Event.byte Packet.Ack, Event.byte Packet.Ack] =
        some (b, rest) ∧
      (b = true ↔ TransferSuccess [1, 2] 128
        [Event.byte Packet.Nak, Event.byte Packet.Ack, Event.byte Packet.Ack]) :=
  claim_C1_transfer_iff [1, 2] 128 (Or.inl rfl)
    [Event.byte Packet.Nak, Event.byte Packet.Ack, Event.byte Packet.Ack]

end Xmodem

/-! ## CTRL-AP register machine lemmas -/

namespace CtrlAp

theorem tick_clock (env : Env) (s : DapState) : (tick env s).clock = s.clock + 1 :=
  rfl

theorem tick_txLog (env : Env) (s : DapState) : (tick env s).txLog = s.txLog :=
  rfl

theorem readRegister_clock (env : Env) (s : DapState) (register : Nat) :
    (readRegister env s register).2.clock = s.clock + 1 := by
  unfold readRegister
  split
  · rfl
  · split
    · rfl
    · split
      · rfl
      · split
        · rfl
        · rfl

theorem readRegister_txLog (env : Env) (s : DapState) (register : Nat) :
    (readRegister env s register).2.txLog = s.txLog := by
  unfold readRegister
  split
  · rfl
  · split
    · rfl
    · split
      · rfl
      · split
        · rfl
        · rfl

theorem waitReadLoop_state_aux (env : Env) (timeout : Int) (start : Nat) :
    ∀ (fuel : Nat) (s : DapState),
      (((start : Int) + timeout - (s.clock : Int)).toNat ≤ fuel) →
      s.clock ≤ (waitReadLoop env timeout start s).2.clock ∧
        (waitReadLoop env timeout start s).2.txLog = s.txLog := by
  intro fuel
  induction fuel with
  | zero =>
    intro s hf
    rw [waitReadLoop]
    have hc := readRegister_clock env s Registers.MailboxTxStatus
    have hl := readRegister_txLog env s Registers.MailboxTxStatus
    by_cases h1 : (readRegister env s Registers.MailboxTxStatus).1 = 0
    · rw [if_pos h1]
      refine ⟨?_, hl⟩
      show s.clock ≤ (readRegister env s Registers.MailboxTxStatus).2.clock
      omega
    · rw [if_neg h1]
      by_cases h2 : ((readRegister env s Registers.MailboxTxStatus).2.clock : Int) -
          (start : Int) ≥ timeout
      · rw [if_pos h2]
        refine ⟨?_, hl⟩
        show s.clock ≤ (readRegister env s Registers.MailboxTxStatus).2.clock
        omega
      · exact absurd h2 (by omega)
  | succ fuel ih =>
    intro s hf
    rw [waitReadLoop]
    have hc := readRegister_clock env s Registers.MailboxTxStatus
    have hl := readRegister_txLog env s Registers.MailboxTxStatus
    by_cases h1 : (readRegister env s Registers.MailboxTxStatus).1 = 0
    · rw [if_pos h1]
      refine ⟨?_, hl⟩
      show s.clock ≤ (readRegister env s Registers.MailboxTxStatus).2.clock
      omega
    · rw [if_neg h1]
      by_cases h2 : ((readRegister env s Registers.MailboxTxStatus).2.clock : Int) -
          (start : Int) ≥ timeout
      · rw [if_pos h2]
        refine ⟨?_, hl⟩
        show s.clock ≤ (readRegister env s Registers.MailboxTxStatus).2.clock
        omega
      · rw [if_neg h2]
        have hrec := ih (readRegister env s Registers.MailboxTxStatus).2 (by omega)
        refine ⟨by omega, ?_⟩
        rw [hrec.2, hl]

theorem waitReadLoop_clock_le (env : Env) (timeout : Int) (start : Nat) (s : DapState) :
    s.clock ≤ (waitReadLoop env timeout start s).2.clock :=
  (waitReadLoop_state_aux env timeout start _ s (Nat.le_refl _)).1

theorem waitReadLoop_txLog (env : Env) (timeout : Int) (start : Nat) (s : DapState) :
    (waitReadLoop env timeout start s).2.txLog = s.txLog :=
  (waitReadLoop_state_aux env timeout start _ s (Nat.le_refl _)).2

theorem waitWrittenLoop_state_aux (env : Env) (timeout : Int) (start : Nat) :
    ∀ (fuel : Nat) (s : DapState),
      (((start : Int) + timeout - (s.clock : Int)).toNat ≤ fuel) →
      s.clock ≤ (waitWrittenLoop env timeout start s).2.clock ∧
        (waitWrittenLoop env timeout start s).2.txLog = s.txLog := by
  intro fuel
  induction fuel with
  | zero =>
    intro s hf
    rw [waitWrittenLoop]
    have hc := readRegister_clock env s Registers.MailboxRxStatus
    have hl := readRegister_txLog env s Registers.MailboxRxStatus
    by_cases h1 : (readRegister env s Registers.MailboxRxStatus).1 ≠ 0
    · rw [if_pos h1]
      refine ⟨?_, hl⟩
      show s.clock ≤ (readRegister env s Registers.MailboxRxStatus).2.clock
      omega
    · rw [if_neg h1]
      by_cases h2 : ((readRegister env s Registers.MailboxRxStatus).2.clock : Int) -
          (start : Int) ≥ timeout
      · rw [if_pos h2]
        refine ⟨?_, hl⟩
        show s.clock ≤ (readRegister env s Registers.MailboxRxStatus).2.clock
        omega
      · exact absurd h2 (by omega)
  | succ fuel ih =>
    intro s hf
    rw [waitWrittenLoop]
    have hc := readRegister_clock env s Registers.MailboxRxStatus
    have hl := readRegister_txLog env s Registers.MailboxRxStatus
    by_cases h1 : (readRegister env s Registers.MailboxRxStatus).1 ≠ 0
    · rw [if_pos h1]
      refine ⟨?_, hl⟩
      show s.clock ≤ (readRegister env s Registers.MailboxRxStatus).2.clock
      omega
    · rw [if_neg h1]
      by_cases h2 : ((readRegister env s Registers.MailboxRxStatus).2.clock : Int) -
          (start : Int) ≥ timeout
      · rw [if_pos h2]
        refine ⟨?_, hl⟩
        show s.clock ≤ (readRegister env s Registers.MailboxRxStatus).2.clock
        omega
      · rw [if_neg h2]
        have hrec := ih (readRegister env s Registers.MailboxRxStatus).2 (by omega)
        refine ⟨by omega, ?_⟩
        rw [hrec.2, hl]

theorem waitWrittenLoop_clock_le (env : Env) (timeout : Int) (start : Nat) (s : DapState) :
    s.clock ≤ (waitWrittenLoop env timeout start s).2.clock :=
  (waitWrittenLoop_state_aux env timeout start _ s (Nat.le_refl _)).1

theorem waitWrittenLoop_txLog (env : Env) (timeout : Int) (start : Nat) (s : DapState) :
    (waitWrittenLoop env timeout start s).2.txLog = s.txLog :=
  (waitWrittenLoop_state_aux env timeout start _ s (Nat.le_refl _)).2

end CtrlAp

namespace CtrlAp

theorem readMailboxLoop_some_length (env : Env) (start : Nat) :
    ∀ (n : Nat) (values : List Nat) (timeout : Int) (s : DapState) (out : List Nat),
      (readMailboxLoop env start n values timeout s).1 = some out →
      out.length = values.length + n := by
  intro n
  induction n with
  | zero =>
    intro values timeout s out h
    rw [readMailboxLoop] at h
    simp at h
    rw [← h]
    simp
  | succ n ih =>
    intro values timeout s out h
    rw [readMailboxLoop] at h
    by_cases hw : (waitMailboxWritten env timeout s).1 = true
    · rw [if_neg (by simp [hw])] at h
      by_cases hd : ((waitMailboxWritten env timeout s).2.clock : Int) - (start : Int) ≥
          timeout
      · rw [if_pos hd] at h
        simp at h
      · rw [if_neg hd] at h
        have := ih _ _ _ _ h
        simp at this
        omega
    · rw [if_pos (by simp [hw])] at h
      simp at h

theorem readMailboxLoop_nonpos_none (env : Env) (start : Nat)
    (n : Nat) (values : List Nat) (timeout : Int) (s : DapState)
    (hstart : start ≤ s.clock) (ht : timeout ≤ 0) :
    (readMailboxLoop env start (n + 1) values timeout s).1 = none := by
  rw [readMailboxLoop]
  by_cases hw : (waitMailboxWritten env timeout s).1 = true
  · rw [if_neg (by simp [hw])]
    have hclock : s.clock ≤ (waitMailboxWritten env timeout s).2.clock :=
      waitWrittenLoop_clock_le env timeout s.clock s
    rw [if_pos (by omega)]
  · rw [if_pos (by simp [hw])]

theorem readMailbox_zero_timeout_none (env : Env) (s : DapState) (n : Nat) :
    (readMailbox env (n + 1) 0 s).1 = none :=
  readMailboxLoop_nonpos_none env s.clock n [] 0 s (Nat.le_refl _) (by omega)

theorem clearRxLoop_fuel_irrelevant (env : Env) (fuel : Nat) (s : DapState) :
    clearRxLoop env (fuel + 1) s = clearRxLoop env 1 s := by
  rw [clearRxLoop]
  rw [show (1 : Nat) = 0 + 1 from rfl, clearRxLoop]
  cases hr : (readMailbox env 1 0 s).1 with
  | none => rfl
  | some v =>
    rw [readMailbox_zero_timeout_none env s 0] at hr
    exact Option.noConfusion hr

end CtrlAp

/-! ## Claim C7: clear does not drain the RX mailbox -/

/-- Claim C7 (code bug): clearRx never reads MailboxRxData.  readMailbox
with the 0.0-second timeout used by clearRx's drain loop always returns
None — after waitMailboxWritten succeeds, the re-check
(now - start) >= timeout always fires at a zero timeout — so the drain
loop exits at once and a stale CPU-to-debugger word (here 7) survives
clear() un-read, contradicting the documented resynchronization. -/
theorem claim_C7_clear_does_not_drain_rx :
    (CtrlAp.readMailbox idleEnv 1 0 staleRxState).1 = none ∧
    CtrlAp.clear idleEnv staleRxState =
      { clock := 3, txPending := none, rxPending := some 7, txLog := [] } := by
  constructor
  · exact CtrlAp.readMailbox_zero_timeout_none idleEnv staleRxState 0
  · simp [CtrlAp.clear, CtrlAp.clearTx, CtrlAp.clearRx, CtrlAp.clearRxLoop,
      CtrlAp.waitMailboxRead, CtrlAp.waitReadLoop, CtrlAp.waitMailboxWritten,
      CtrlAp.waitWrittenLoop, CtrlAp.readMailbox, CtrlAp.readMailboxLoop,
      CtrlAp.readRegister, CtrlAp.tick, CtrlAp.Registers.Reset,
      CtrlAp.Registers.MailboxTxStatus, CtrlAp.Registers.MailboxRxStatus,
      CtrlAp.Registers.MailboxRxData, CtrlAp.Registers.MailboxTxData,
      idleEnv, staleRxState]

/-! ## Claim C6: the writeMailbox timeout discipline -/

namespace CtrlAp

theorem waitMailboxRead_txLog (env : Env) (timeout : Int) (s : DapState) :
    (waitMailboxRead env timeout s).2.txLog = s.txLog :=
  waitReadLoop_txLog env timeout s.clock s

theorem waitMailboxRead_clock_le (env : Env) (timeout : Int) (s : DapState) :
    s.clock ≤ (waitMailboxRead env timeout s).2.clock :=
  waitReadLoop_clock_le env timeout s.clock s

theorem writeRegister_txData_txLog (env : Env) (s : DapState) (value : Nat) :
    (writeRegister env s Registers.MailboxTxData value).txLog =
      s.txLog ++ [(s.clock, value)] :=
  rfl

theorem writeRegister_txData_clock (env : Env) (s : DapState) (value : Nat) :
    (writeRegister env s Registers.MailboxTxData value).clock = s.clock + 1 :=
  rfl

theorem writeMailboxLoop_txLog_spec (env : Env) (flush : Bool) (start : Nat) :
    ∀ (values : List Nat) (timeout : Int) (s : DapState),
      (start : Int) ≤ (s.clock : Int) →
      ∃ newEntries,
        (writeMailboxLoop env flush start values timeout s).2.txLog =
          s.txLog ++ newEntries ∧
        ∀ e ∈ newEntries, ((e.1 : Int) - (start : Int)) < timeout := by
  intro values
  induction values with
  | nil =>
    intro timeout s hs
    rw [writeMailboxLoop]
    refine ⟨[], ?_, by simp⟩
    rw [List.append_nil]
    by_cases hf : flush
    · rw [if_pos hf]
      by_cases hw : (waitMailboxRead env timeout
          (readRegister env s Registers.Reset).2).1 = true
      · rw [if_neg (by simp [hw])]
        show (waitMailboxRead env timeout
          (readRegister env s Registers.Reset).2).2.txLog = s.txLog
        rw [waitMailboxRead_txLog, readRegister_txLog]
      · rw [if_pos (by simp [hw])]
        show (waitMailboxRead env timeout
          (readRegister env s Registers.Reset).2).2.txLog = s.txLog
        rw [waitMailboxRead_txLog, readRegister_txLog]
    · rw [if_neg hf]
  | cons value values ih =>
    intro timeout s hs
    rw [writeMailboxLoop]
    by_cases hearly : ((s.clock : Int) - (start : Int) ≥ timeout)
    · rw [if_pos hearly]
      exact ⟨[], by simp, by simp⟩
    · rw [if_neg hearly]
      have hs1log := writeRegister_txData_txLog env s value
      have hs1clock := writeRegister_txData_clock env s value
      have hwlog := waitMailboxRead_txLog env timeout
        (writeRegister env s Registers.MailboxTxData value)
      have hwclock := waitMailboxRead_clock_le env timeout
        (writeRegister env s Registers.MailboxTxData value)
      by_cases hw : (waitMailboxRead env timeout
          (writeRegister env s Registers.MailboxTxData value)).1 = true
      · rw [if_neg (by simp [hw])]
        obtain ⟨ne2, hlog2, hbound2⟩ := ih (timeout - ((s.clock : Int) - (start : Int)))
          (waitMailboxRead env timeout
            (writeRegister env s Registers.MailboxTxData value)).2 (by omega)
        refine ⟨(s.clock, value) :: ne2, ?_, ?_⟩
        · rw [hlog2, hwlog, hs1log]
          simp
        · intro e he
          rcases List.mem_cons.mp he with h1 | h1
          · rw [h1]
            simp
            omega
          · have := hbound2 e h1
            omega
      · rw [if_pos (by simp [hw])]
        refine ⟨[(s.clock, value)], ?_, ?_⟩
        · show (waitMailboxRead env timeout
            (writeRegister env s Registers.MailboxTxData value)).2.txLog =
            s.txLog ++ [(s.clock, value)]
          rw [hwlog, hs1log]
        · intro e he
          simp at he
          rw [he]
          simp
          omega

end CtrlAp

namespace CtrlAp

theorem overshoot_run :
    writeMailbox overshootEnv [10, 20] false 4 state0 =
      (true,
        { clock := 8, txPending := none, rxPending := none,
          txLog := [(0, 10), (3, 20)] }) := by
  simp [writeMailbox, writeMailboxLoop, waitMailboxRead, waitReadLoop, readRegister,
    writeRegister, tick, Registers.Reset, Registers.MailboxTxData,
    Registers.MailboxTxStatus, Registers.MailboxRxStatus, Registers.MailboxRxData,
    overshootEnv, state0]

end CtrlAp

/-- Counterexample to claim C6 as stated: with a peer that consumes the
first word at tick 1 and the second only at tick 6, writeMailbox with a
budget of 4 returns True even though the total wall-clock time elapsed
(8 ticks) exceeds the timeout, and the second word (written at tick 3)
was not consumed at any tick before the wall-clock deadline 4 — the
claimed "returns False exactly when the wall-clock budget runs out
before every word is consumed" is violated. -/
theorem claim_C6_counterexample :
    (CtrlAp.writeMailbox overshootEnv [10, 20] false 4 state0).1 = true ∧
    ((CtrlAp.writeMailbox overshootEnv [10, 20] false 4 state0).2.clock : Int) -
      (state0.clock : Int) > 4 ∧
    (CtrlAp.writeMailbox overshootEnv [10, 20] false 4 state0).2.txLog =
      [(0, 10), (3, 20)] ∧
    (∀ t : Nat, t < 6 → 3 ≤ t → overshootEnv.txConsumeAt t = false) := by
  have h := CtrlAp.overshoot_run
  refine ⟨by rw [h], ?_, by rw [h], by decide⟩
  rw [h]
  simp [state0]

/-- Claim C6 (amended): writeMailbox's timeout is a budget decremented
across the whole call rather than reset per word, and the budget only
shrinks: every MailboxTxData write the call performs happens strictly
before the wall-clock deadline (call start plus timeout).  The waits for
consumption, however, are allowed to finish after that deadline, so the
call is not a wall-clock deadline on completion (see the
counterexample). -/
theorem claim_C6_amended_writes_before_deadline (env : CtrlAp.Env)
    (values : List Nat) (flush : Bool) (timeout : Int) (s : CtrlAp.DapState) :
    ∃ newEntries,
      (CtrlAp.writeMailbox env values flush timeout s).2.txLog =
        s.txLog ++ newEntries ∧
      ∀ e ∈ newEntries, ((e.1 : Int) - (s.clock : Int)) < timeout :=
  CtrlAp.writeMailboxLoop_txLog_spec env flush s.clock values timeout s (by omega)

/-! ## Claims C3 and C4: the mailbox request protocol -/

namespace Mailbox

theorem makeFromBuffer_two (a b : Nat) :
    Packet.makeFromBuffer [a, b] = some { type := a, length := b, data := [] } :=
  rfl

theorem readMailbox_two_length (env : CtrlAp.Env) (timeout : Int)
    (s : CtrlAp.DapState) (out : List Nat)
    (h : (CtrlAp.readMailbox env 2 timeout s).1 = some out) : out.length = 2 := by
  have := CtrlAp.readMailboxLoop_some_length env s.clock 2 [] timeout s out h
  simpa using this

/-- Claim C3: _sendRequest returns exactly one of True, False, None, and:
None iff the 3.0-second write phase failed or the 2-word read phase
returned None; True iff the write succeeded and the 2-word response
starts with Ok (1); False iff the write succeeded and the 2-word
response starts with anything else (for instance [2, 0]).  The response
being well-formed (at least 2 words) is automatic: readMailbox with
length 2 returns exactly two words or None. -/
theorem claim_C3_sendRequest_trichotomy (env : CtrlAp.Env) (request : Packet)
    (timeout : Int) (s : CtrlAp.DapState) :
    ((sendRequest env request timeout s).1 = none ↔
      ((CtrlAp.writeMailbox env request.buffer false 3 (CtrlAp.clear env s)).1 = false ∨
        ((CtrlAp.writeMailbox env request.buffer false 3 (CtrlAp.clear env s)).1 = true ∧
          (CtrlAp.readMailbox env 2 timeout
            (CtrlAp.writeMailbox env request.buffer false 3
              (CtrlAp.clear env s)).2).1 = none))) ∧
    ((sendRequest env request timeout s).1 = some true ↔
      ((CtrlAp.writeMailbox env request.buffer false 3 (CtrlAp.clear env s)).1 = true ∧
        ∃ len, (CtrlAp.readMailbox env 2 timeout
          (CtrlAp.writeMailbox env request.buffer false 3
            (CtrlAp.clear env s)).2).1 = some [Response.Ok, len])) ∧
    ((sendRequest env request timeout s).1 = some false ↔
      ((CtrlAp.writeMailbox env request.buffer false 3 (CtrlAp.clear env s)).1 = true ∧
        ∃ a len, (CtrlAp.readMailbox env 2 timeout
          (CtrlAp.writeMailbox env request.buffer false 3
            (CtrlAp.clear env s)).2).1 = some [a, len] ∧ a ≠ Response.Ok)) := by
  cases hw : (CtrlAp.writeMailbox env request.buffer false 3 (CtrlAp.clear env s)).1 with
  | false =>
    refine ⟨?_, ?_, ?_⟩
    · simp [sendRequest, hw]
    · simp [sendRequest, hw]
    · simp [sendRequest, hw]
  | true =>
    cases hr : (CtrlAp.readMailbox env 2 timeout
        (CtrlAp.writeMailbox env request.buffer false 3 (CtrlAp.clear env s)).2).1 with
    | none =>
      refine ⟨?_, ?_, ?_⟩
      · simp [sendRequest, hw, hr]
      · simp [sendRequest, hw, hr]
      · simp [sendRequest, hw, hr]
    | some response =>
      have hlen : response.length = 2 := readMailbox_two_length env timeout _ response hr
      match response, hlen with
      | [a, b], _ =>
        by_cases ha : a = Response.Ok
        · subst ha
          refine ⟨?_, ?_, ?_⟩
          · simp [sendRequest, hw, hr, makeFromBuffer_two]
          · simp [sendRequest, hw, hr, makeFromBuffer_two]
          · simp [sendRequest, hw, hr, makeFromBuffer_two]
        · refine ⟨?_, ?_, ?_⟩
          · simp [sendRequest, hw, hr, makeFromBuffer_two, ha]
          · simp [sendRequest, hw, hr, makeFromBuffer_two, ha]
          · simp [sendRequest, hw, hr, makeFromBuffer_two, ha]

end Mailbox

namespace Mailbox

theorem pingIter_succ (env : CtrlAp.Env) (i : Nat) (s : CtrlAp.DapState) :
    pingIter env (i + 1) s = pingIter env i (ping env s).2 :=
  rfl

theorem convertPings_true_iff (env : CtrlAp.Env) :
    ∀ (n : Nat) (s : CtrlAp.DapState),
      (convertPings env n s).1 = true ↔
        ∃ i, i < n ∧ (ping env (pingIter env i s)).1 = true := by
  intro n
  induction n with
  | zero =>
    intro s
    simp [convertPings]
  | succ n ih =>
    intro s
    rw [convertPings]
    by_cases hp : (ping env s).1 = true
    · rw [if_pos hp]
      simp only [List.cons.injEq]
      constructor
      · intro _
        exact ⟨0, by omega, hp⟩
      · intro _
        trivial
    · rw [if_neg hp]
      rw [ih (ping env s).2]
      constructor
      · rintro ⟨i, hi, hping⟩
        exact ⟨i + 1, by omega, by rw [pingIter_succ]; exact hping⟩
      · rintro ⟨i, hi, hping⟩
        cases i with
        | zero => exact absurd hping hp
        | succ j =>
          rw [pingIter_succ] at hping
          exact ⟨j, by omega, hping⟩

/-- Claim C4: convert() returns True exactly when the initial Convert
send timed out (None) and one of the 10 subsequent pings succeeds; any
non-timeout reply (True or False alike) to the Convert send gives False
at once, and so does exhausting all 10 pings. -/
theorem claim_C4_convert_iff (env : CtrlAp.Env) (s : CtrlAp.DapState) :
    (convert env s).1 = true ↔
      ((sendRequest env convertRequest 1 s).1 = none ∧
        ∃ i, i < 10 ∧ (ping env (pingIter env i
          (sendRequest env convertRequest 1 s).2)).1 = true) := by
  rw [convert]
  cases hr : (sendRequest env convertRequest 1 s).1 with
  | none =>
    rw [if_neg (by simp [hr])]
    rw [convertPings_true_iff env 10 (sendRequest env convertRequest 1 s).2]
    simp
  | some b =>
    rw [if_pos (by simp [hr])]
    simp [hr]

end Mailbox
